import Mathlib

/-!
Verification of the tempMail disposable-email relay (src/main.go) against its
natural-language specification.  The Go program keeps a process-wide map
`mailBox : map[string][]mailContent`, fills it from an SMTP handler, drains it
LIFO through `GET /getMail/{key}`, and wipes it daily.  Below, every definition
is a shallow embedding of the corresponding Go function; machine state (the
global map) is passed explicitly, and `time.Now()` is an explicit `Nat`
argument.  Definitions whose name starts with `spec_` are transcribed from the
specification's words (not from the source) and exist only to be compared with
the source-derived definitions.
-/

/-- Embeds Go struct `mailContent` (src/main.go lines 27-34).  The Go field
`from` is a Lean keyword, so it is rendered `from_`; `receivedAt` (a
`time.Time`) is modelled as a `Nat` timestamp. -/
structure MailContent where
  from_ : String
  to_ : String
  title : String
  TextContent : String
  HtmlContent : String
  receivedAt : Nat
deriving DecidableEq, Repr

/-- The global `mailBox = make(map[string][]mailContent)` (line 37).  A Go map
lookup distinguishes an absent key from a key mapped to an empty slice, hence
`Option`. -/
def MailBoxMap : Type := String → Option (List MailContent)

/-- Go map assignment `m[k] = v`. -/
def mapInsert (m : MailBoxMap) (k : String) (v : List MailContent) : MailBoxMap :=
  fun x => if x = k then some v else m x

/-- `make(map[string][]mailContent)`: the empty map (lines 37 and 204). -/
def emptyBox : MailBoxMap := fun _ => none

/-- One character of the cutset `"<>"` used by `strings.Trim(s, "<>")`. -/
def isAngle (c : Char) : Bool := c == '<' || c == '>'

/-- Go `strings.Trim(s, "<>")` (lines 69-70): remove every leading and every
trailing character belonging to the cutset. -/
def goTrim (s : String) : String :=
  ⟨((s.data.dropWhile isAngle).reverse.dropWhile isAngle).reverse⟩

/-- Go `strings.Split(s, sep)` for the one-character separator used at line 45;
`strings.Split("", ",") = [""]`, and in general n separators yield n+1 pieces. -/
def splitOnChar (sep : Char) : List Char → List (List Char)
  | [] => [[]]
  | c :: cs =>
    if c = sep then [] :: splitOnChar sep cs
    else
      match splitOnChar sep cs with
      | [] => [[c]]
      | h :: t => (c :: h) :: t

/-- `strings.Split(s, ",")` as used on `ALLOWED_DOMAINS` (line 45). -/
def goSplitComma (s : String) : List String :=
  (splitOnChar ',' s.data).map (fun l => ⟨l⟩)

/-- Embeds Go struct `Config` (lines 16-24). -/
structure Config where
  AllowedDomains : List String
  SMTPPort : String
  HTTPPort : String
  HTTPSPort : String
  CertFile : String
  KeyFile : String
  EnableHTTPS : Bool
deriving DecidableEq, Repr

/-- Go `getEnvOrDefault` (lines 61-66).  The environment is modelled as a total
function `String → String`; `os.Getenv` returns `""` for an unset variable, so
unset and empty are indistinguishable, exactly as in Go. -/
def getEnvOrDefault (env : String → String) (key defaultValue : String) : String :=
  if env key ≠ "" then env key else defaultValue

/-- Go `initConfig` (lines 43-59).  `log.Fatal` aborts the process, modelled as
`none`; `some cfg` is the configuration of a process that did start.  The Go
guard is `len(cfg.AllowedDomains) == 0 || cfg.AllowedDomains[0] == ""`; the
index `[0]` is only reached when the length is nonzero, rendered `headD ""`. -/
def initConfig (env : String → String) : Option Config :=
  let cfg : Config :=
    { AllowedDomains := goSplitComma (env "ALLOWED_DOMAINS")
      SMTPPort := getEnvOrDefault env "SMTP_PORT" "25"
      HTTPPort := getEnvOrDefault env "HTTP_PORT" "80"
      HTTPSPort := getEnvOrDefault env "HTTPS_PORT" "443"
      CertFile := getEnvOrDefault env "CERT_FILE" "./certs/server.pem"
      KeyFile := getEnvOrDefault env "KEY_FILE" "./certs/server.key"
      EnableHTTPS := env "ENABLE_HTTPS" = "true" }
  if cfg.AllowedDomains.length = 0 ∨ cfg.AllowedDomains.headD "" = "" then none
  else some cfg

/-- The parsed message produced by `c.Parse()` (line 71): the fields of the
parse result that `handler` reads. -/
structure ParsedMsg where
  Subject : String
  TextBody : String
  HTMLBody : String
deriving DecidableEq, Repr

/-- Lines 89-92 of `handler`: create the mailbox slice if the key is absent,
then `mailBox[to] = append(mailBox[to], content)`. -/
def storeAppend (box : MailBoxMap) (to_ : String) (content : MailContent) : MailBoxMap :=
  mapInsert box to_ (((box to_).getD []) ++ [content])

/-- Embeds the SMTP `handler` (lines 68-96).  Inputs: the strings
`c.To().String()` and `c.From().String()`, the result of `c.Parse()` (an
`Except` carrying the parse error), the current time, and the global map.
Output: the returned `error` (`.ok ()` for `nil`) paired with the global map
after the call. -/
def handler (toRaw fromRaw : String) (parseResult : Except String ParsedMsg)
    (now : Nat) (box : MailBoxMap) : Except String Unit × MailBoxMap :=
  match parseResult with
  | .error e => (.error e, box)
  | .ok msg =>
    let to_ := goTrim toRaw
    let from_ := goTrim fromRaw
    let content : MailContent :=
      { from_ := from_, to_ := to_, title := msg.Subject,
        TextContent := msg.TextBody, HtmlContent := msg.HTMLBody,
        receivedAt := now }
    (.ok (), storeAppend box to_ content)

/-- The JSON value bound to the key `"mail"` in a `/getMail` response: either
the sentinel string of line 159 or the four-field object of lines 171-178. -/
inductive MailJson where
  | sentinel (s : String)
  | content (from_ title TextContent HtmlContent : String)
deriving DecidableEq, Repr

/-- A `/getMail` HTTP response: status code plus the `"mail"` body.  By
construction it carries nothing besides what lines 159 and 171-178 serialize:
in particular neither `receivedAt` nor the recipient key can appear. -/
structure GetMailResp where
  status : Nat
  mail : MailJson
deriving DecidableEq, Repr

/-- `c.JSON(201, gin.H{"mail": "没有邮件"})` (line 159). -/
def emptyResp : GetMailResp := { status := 201, mail := .sentinel "没有邮件" }

/-- The 200 response of lines 171-178 built from a record. -/
def foundOf (m : MailContent) : GetMailResp :=
  { status := 200,
    mail := .content m.from_ m.title m.TextContent m.HtmlContent }

/-- Embeds `handleGetMail` (lines 152-179) as one sequential (interleaving-free)
execution: look the key up, answer 201 if absent or empty, otherwise pop the
last record (`mails[:lastIndex]` is `dropLast`) and answer 200.  The returned
map is the global `mailBox` after the call. -/
def handleGetMail (box : MailBoxMap) (mailHead : String) : GetMailResp × MailBoxMap :=
  match box mailHead with
  | none => (emptyResp, box)
  | some mails =>
    match mails.getLast? with
    | none => (emptyResp, box)
    | some tmpMail =>
      (foundOf tmpMail, mapInsert box mailHead mails.dropLast)

/-- The read section of `handleGetMail` held under `mu.RLock` (lines 155-165):
either the handler decides to answer 201 (`none`) or it snapshots the slice
`mails` and the record `tmpMail := mails[lastIndex]` into locals. -/
def popReadPhase (box : MailBoxMap) (mailHead : String) :
    Option (List MailContent × MailContent) :=
  match box mailHead with
  | none => none
  | some mails =>
    match mails.getLast? with
    | none => none
    | some tmpMail => some (mails, tmpMail)

/-- The write section of `handleGetMail` held under `mu.Lock` (lines 167-169):
`mailBox[mailHead] = mails[:lastIndex]`, computed from the snapshot `mails`
taken in the read section — the current map contents are not re-examined. -/
def popWritePhase (box : MailBoxMap) (mailHead : String)
    (mails : List MailContent) : MailBoxMap :=
  mapInsert box mailHead mails.dropLast

/-- Two concurrent `GET /getMail/key` requests A and B under the schedule
read(A); read(B); write(A); write(B) — each locked section is atomic, which is
all the reader/writer mutex guarantees.  Returns A's response, B's response and
the final map.  When A's read section already decides 201, A is done and B runs
uninterleaved. -/
def twoPopsRRWW (box : MailBoxMap) (key : String) :
    GetMailResp × GetMailResp × MailBoxMap :=
  match popReadPhase box key with
  | none =>
    let rb := handleGetMail box key
    (emptyResp, rb.1, rb.2)
  | some (mailsA, tmpA) =>
    match popReadPhase box key with
    | none => (emptyResp, emptyResp, box)
    | some (mailsB, tmpB) =>
      let b1 := popWritePhase box key mailsA
      let b2 := popWritePhase b1 key mailsB
      (foundOf tmpA, foundOf tmpB, b2)

/-- The whole server state seen by the HTTP routes: the mailbox map plus the
startup configuration. -/
structure ServerState where
  mailBox : MailBoxMap
  config : Config

/-- Go `clearMailBox` (lines 201-206): `mailBox = make(map[string][]mailContent)`;
`config` is not touched. -/
def clearMailBox (s : ServerState) : ServerState :=
  { s with mailBox := emptyBox }

/-- The `GET /getAllowedDomains` route body (lines 145-147). -/
def getAllowedDomainsResp (s : ServerState) : List String :=
  s.config.AllowedDomains

/-- Transcribed from the specification's words, not from the source: "the
local-part (pre-@) of the destination address" — everything before the first
`'@'`. -/
def spec_localPart (s : String) : String :=
  ⟨s.data.takeWhile (fun c => c ≠ '@')⟩

/-- Two maps are indistinguishable to retrieval when every key yields the same
message sequence once an absent key and a key mapped to the empty slice are
identified (cf. line 157: `!exists || len(mails) == 0` takes the same branch). -/
def obsEquiv (b1 b2 : MailBoxMap) : Prop :=
  ∀ k, (b1 k).getD [] = (b2 k).getD []

/-- Three `handler`-style appends to one key, in order m1, m2, m3. -/
def append3 (box : MailBoxMap) (key : String) (m1 m2 m3 : MailContent) : MailBoxMap :=
  storeAppend (storeAppend (storeAppend box key m1) key m2) key m3

/-- Concrete sample records for witnesses. -/
def sampleMsg1 : MailContent := ⟨"s1@x.com", "k", "t1", "x1", "h1", 1⟩

def sampleMsg2 : MailContent := ⟨"s2@x.com", "k", "t2", "x2", "h2", 2⟩

def sampleMsg3 : MailContent := ⟨"s3@x.com", "k", "t3", "x3", "h3", 3⟩

/-- A concrete map holding exactly one message under key `"k"`. -/
def sampleBox : MailBoxMap := mapInsert emptyBox "k" [sampleMsg1]

/-- A concrete startup configuration for witnesses. -/
def sampleConfig : Config :=
  { AllowedDomains := ["example.com"], SMTPPort := "25", HTTPPort := "80",
    HTTPSPort := "443", CertFile := "./certs/server.pem",
    KeyFile := "./certs/server.key", EnableHTTPS := false }

/-- A concrete whole-server state for witnesses. -/
def sampleState : ServerState := { mailBox := sampleBox, config := sampleConfig }

/-- Environment with `ALLOWED_DOMAINS=",example.com"` and all else unset. -/
def envComma : String → String :=
  fun k => if k = "ALLOWED_DOMAINS" then ",example.com" else ""

/-- Environment with `ALLOWED_DOMAINS="example.com"` and all else unset. -/
def envGood : String → String :=
  fun k => if k = "ALLOWED_DOMAINS" then "example.com" else ""

/-- The map produced by a delivery to `<alice@example.com>`, starting empty. -/
def c1Handled : MailBoxMap :=
  (handler "<alice@example.com>" "<bob@example.com>" (.ok ⟨"Hi", "tb", "hb"⟩) 7 emptyBox).2

/- ------------------------------------------------------------------ -/
/- Helper lemmas (shared across several claims). -/

theorem mapInsert_self (m : MailBoxMap) (k : String) (v : List MailContent) :
    mapInsert m k v k = some v := by
  simp [mapInsert]

theorem mapInsert_other (m : MailBoxMap) (k k2 : String) (v : List MailContent)
    (h : k2 ≠ k) : mapInsert m k v k2 = m k2 := by
  simp [mapInsert, h]

theorem handleGetMail_nilD (box : MailBoxMap) (key : String)
    (h : (box key).getD [] = []) : handleGetMail box key = (emptyResp, box) := by
  cases hb : box key with
  | none => simp [handleGetMail, hb]
  | some l =>
    rw [hb] at h
    simp only [Option.getD_some] at h
    subst h
    simp [handleGetMail, hb]

theorem handleGetMail_concatD (box : MailBoxMap) (key : String)
    (l : List MailContent) (m : MailContent)
    (h : (box key).getD [] = l ++ [m]) :
    handleGetMail box key = (foundOf m, mapInsert box key l) := by
  cases hb : box key with
  | none => rw [hb] at h; simp at h
  | some l2 =>
    rw [hb] at h
    simp only [Option.getD_some] at h
    subst h
    simp [handleGetMail, hb, List.getLast?_concat, List.dropLast_concat]

theorem splitOnChar_ne_nil (sep : Char) (l : List Char) :
    splitOnChar sep l ≠ [] := by
  induction l with
  | nil => simp [splitOnChar]
  | cons c cs ih =>
    simp only [splitOnChar]
    by_cases h : c = sep
    · simp [h]
    · simp only [if_neg h]
      cases hs : splitOnChar sep cs with
      | nil => simp
      | cons a t => simp

theorem goSplitComma_ne_nil (s : String) : goSplitComma s ≠ [] := by
  simp [goSplitComma, splitOnChar_ne_nil]

/- ------------------------------------------------------------------ -/
/- Claim theorems. -/

/-- Claim C1, counterexample: delivering to `<alice@example.com>` stores the
record under the full trimmed address `"alice@example.com"`, while the
local-part `"alice"` (what the claim names as the storage key) holds nothing.
The claim "the key is the local-part, never the full address" is false. -/
theorem key_is_not_localPart_cex :
    spec_localPart "alice@example.com" = "alice" ∧
    c1Handled "alice" = none ∧
    c1Handled "alice@example.com" =
      some [⟨"bob@example.com", "alice@example.com", "Hi", "tb", "hb", 7⟩] := by
  decide

/-- Claim C1 (amended): the key under which an accepted message is stored is
the full recipient address with angle-bracket wrapping stripped — the `'@'`
and the domain are kept, the local-part is never extracted — and every other
key of the store is untouched. -/
theorem storage_key_full_trimmed_address (toRaw fromRaw : String)
    (msg : ParsedMsg) (now : Nat) (box : MailBoxMap) :
    (handler toRaw fromRaw (.ok msg) now box).2 (goTrim toRaw) =
      some (((box (goTrim toRaw)).getD []) ++
        [⟨goTrim fromRaw, goTrim toRaw, msg.Subject, msg.TextBody,
          msg.HTMLBody, now⟩]) ∧
    ∀ k, k ≠ goTrim toRaw →
      (handler toRaw fromRaw (.ok msg) now box).2 k = box k := by
  constructor
  · simp [handler, storeAppend, mapInsert]
  · intro k hk
    simp [handler, storeAppend, mapInsert, hk]

/-- Witness for `storage_key_full_trimmed_address` at a concrete delivery. -/
theorem storage_key_full_trimmed_address_witness :
    (handler "<a@e.com>" "<b@e.com>" (.ok ⟨"s", "t", "h"⟩) 3 emptyBox).2
        (goTrim "<a@e.com>") =
      some (((emptyBox (goTrim "<a@e.com>")).getD []) ++
        [⟨goTrim "<b@e.com>", goTrim "<a@e.com>", "s", "t", "h", 3⟩]) ∧
    "zzz" ≠ goTrim "<a@e.com>" ∧
    (handler "<a@e.com>" "<b@e.com>" (.ok ⟨"s", "t", "h"⟩) 3 emptyBox).2 "zzz" =
      emptyBox "zzz" := by
  refine ⟨(storage_key_full_trimmed_address _ _ _ _ _).1, by decide,
    (storage_key_full_trimmed_address _ _ _ _ _).2 "zzz" (by decide)⟩

/-- Claim C2: LIFO retrieval order.  Starting from a key whose mailbox is
absent or empty, after appending m1, m2, m3 in that order (and nothing else
interleaved), four successive `GET /getMail/{key}` calls answer m3, m2, m1,
and then the empty 201 response. -/
theorem lifo_pop_order (box : MailBoxMap) (key : String)
    (m1 m2 m3 : MailContent) (h : (box key).getD [] = []) :
    (handleGetMail (append3 box key m1 m2 m3) key).1 = foundOf m3 ∧
    (handleGetMail
      (handleGetMail (append3 box key m1 m2 m3) key).2 key).1 = foundOf m2 ∧
    (handleGetMail (handleGetMail
      (handleGetMail (append3 box key m1 m2 m3) key).2 key).2 key).1
        = foundOf m1 ∧
    (handleGetMail (handleGetMail (handleGetMail
      (handleGetMail (append3 box key m1 m2 m3) key).2 key).2 key).2 key).1
        = emptyResp := by
  have h0 : ((append3 box key m1 m2 m3) key).getD [] = [m1, m2] ++ [m3] := by
    simp [append3, storeAppend, mapInsert, h]
  have p1 := handleGetMail_concatD _ key [m1, m2] m3 h0
  have h1 : ((mapInsert (append3 box key m1 m2 m3) key [m1, m2]) key).getD []
      = [m1] ++ [m2] := by simp [mapInsert]
  have p2 := handleGetMail_concatD _ key [m1] m2 h1
  have h2 : ((mapInsert (mapInsert (append3 box key m1 m2 m3) key [m1, m2])
      key [m1]) key).getD [] = [] ++ [m1] := by simp [mapInsert]
  have p3 := handleGetMail_concatD _ key [] m1 h2
  have h3 : ((mapInsert (mapInsert (mapInsert (append3 box key m1 m2 m3)
      key [m1, m2]) key [m1]) key []) key).getD [] = [] := by simp [mapInsert]
  have p4 := handleGetMail_nilD _ key h3
  rw [p1]
  simp only [Prod.snd]
  rw [p2]
  simp only [Prod.snd]
  rw [p3]
  simp only [Prod.snd]
  rw [p4]
  simp

/-- Witness for `lifo_pop_order` on three concrete messages. -/
theorem lifo_pop_order_witness :
    (handleGetMail (append3 emptyBox "k" sampleMsg1 sampleMsg2 sampleMsg3)
        "k").1 = foundOf sampleMsg3 ∧
    (handleGetMail (handleGetMail
        (append3 emptyBox "k" sampleMsg1 sampleMsg2 sampleMsg3) "k").2
        "k").1 = foundOf sampleMsg2 ∧
    (handleGetMail (handleGetMail (handleGetMail
        (append3 emptyBox "k" sampleMsg1 sampleMsg2 sampleMsg3) "k").2 "k").2
        "k").1 = foundOf sampleMsg1 ∧
    (handleGetMail (handleGetMail (handleGetMail (handleGetMail
        (append3 emptyBox "k" sampleMsg1 sampleMsg2 sampleMsg3) "k").2 "k").2
        "k").2 "k").1 = emptyResp :=
  lifo_pop_order emptyBox "k" sampleMsg1 sampleMsg2 sampleMsg3 (by decide)

/-- Claim C3: the exclusive section of `handleGetMail` (lines 167-169) writes
the slice snapshotted in the shared section without re-validating it, so two
requests racing on a key that holds exactly one message can both return that
message: under schedule read(A), read(B), write(A), write(B), both callers get
`foundOf m` — double delivery, K = 1 but two non-empty responses. -/
theorem double_delivery_without_revalidation (box : MailBoxMap) (key : String)
    (m : MailContent) (h : box key = some [m]) :
    twoPopsRRWW box key =
      (foundOf m, foundOf m, mapInsert (mapInsert box key []) key []) := by
  simp [twoPopsRRWW, popReadPhase, popWritePhase, h]

/-- Witness for `double_delivery_without_revalidation` on a concrete map. -/
theorem double_delivery_without_revalidation_witness :
    twoPopsRRWW sampleBox "k" =
      (foundOf sampleMsg1, foundOf sampleMsg1,
        mapInsert (mapInsert sampleBox "k" []) "k" []) :=
  double_delivery_without_revalidation sampleBox "k" sampleMsg1 (by decide)

/-- Claim C4: popping an absent key, or a key mapped to the empty slice,
always yields the non-error 201 response carrying the "no mail" sentinel and
leaves the store untouched — for every store state, hence after every
sequence of prior operations. -/
theorem pop_empty_never_errors (box : MailBoxMap) (key : String)
    (h : box key = none ∨ box key = some []) :
    handleGetMail box key = (emptyResp, box) ∧
    emptyResp.status = 201 ∧ emptyResp.mail = .sentinel "没有邮件" := by
  rcases h with h | h
  · exact ⟨handleGetMail_nilD box key (by rw [h]; rfl), rfl, rfl⟩
  · exact ⟨handleGetMail_nilD box key (by rw [h]; rfl), rfl, rfl⟩

/-- Witness for `pop_empty_never_errors`: key `"carol"` was never written. -/
theorem pop_empty_never_errors_witness :
    handleGetMail emptyBox "carol" = (emptyResp, emptyBox) ∧
    emptyResp.status = 201 ∧ emptyResp.mail = .sentinel "没有邮件" :=
  pop_empty_never_errors emptyBox "carol" (Or.inl rfl)

/-- Claim C5: after `clearMailBox` runs, every key that previously held mail
answers with the empty 201 response, and the `/getAllowedDomains` body is not
changed by the purge. -/
theorem clearAll_purges_and_keeps_domains (s : ServerState) (key : String)
    (_h : s.mailBox key ≠ none) :
    handleGetMail (clearMailBox s).mailBox key =
      (emptyResp, (clearMailBox s).mailBox) ∧
    getAllowedDomainsResp (clearMailBox s) = getAllowedDomainsResp s := by
  exact ⟨handleGetMail_nilD _ key rfl, rfl⟩

/-- Witness for `clearAll_purges_and_keeps_domains` on a populated state. -/
theorem clearAll_purges_and_keeps_domains_witness :
    handleGetMail (clearMailBox sampleState).mailBox "k" =
      (emptyResp, (clearMailBox sampleState).mailBox) ∧
    getAllowedDomainsResp (clearMailBox sampleState) =
      getAllowedDomainsResp sampleState :=
  clearAll_purges_and_keeps_domains sampleState "k" (by decide)

/-- Claim C6: when `GET /getMail/{key}` finds a record, the response has
status 200 and its mail object is exactly the record's four strings — sender
as `from`, subject as `title`, `TextContent`, `HtmlContent`.  The response
type `GetMailResp` carries, by construction from lines 171-178, no further
field: neither `receivedAt` nor the recipient key can occur in any response. -/
theorem found_response_exact_fields (box : MailBoxMap) (key : String)
    (mails : List MailContent) (tmpMail : MailContent)
    (h1 : box key = some mails) (h2 : mails.getLast? = some tmpMail) :
    (handleGetMail box key).1 =
      { status := 200,
        mail := .content tmpMail.from_ tmpMail.title
          tmpMail.TextContent tmpMail.HtmlContent } := by
  simp [handleGetMail, h1, h2, foundOf]

/-- Witness for `found_response_exact_fields` on a concrete map. -/
theorem found_response_exact_fields_witness :
    (handleGetMail sampleBox "k").1 =
      { status := 200,
        mail := .content sampleMsg1.from_ sampleMsg1.title
          sampleMsg1.TextContent sampleMsg1.HtmlContent } :=
  found_response_exact_fields sampleBox "k" [sampleMsg1] sampleMsg1
    (by decide) (by decide)

/-- Claim C7, counterexample: `ALLOWED_DOMAINS=",example.com"` is set and
non-empty, yet `initConfig` still aborts — so "fails fatally if and only if
the configuration is empty or unset" is false in its only-if direction. -/
theorem config_fail_iff_cex :
    envComma "ALLOWED_DOMAINS" = ",example.com" ∧
    envComma "ALLOWED_DOMAINS" ≠ "" ∧
    initConfig envComma = none := by
  decide

/-- Claim C7 (amended): startup fails fatally if and only if the FIRST
comma-separated element of the allowed-domains variable is empty — which is in
particular the case when the variable is empty or unset, since
`strings.Split("", ",") = [""]` — and when startup succeeds the domain list is
non-empty with a non-empty first element. -/
theorem config_fail_iff_first_elem_empty (env : String → String) :
    (initConfig env = none ↔
      (goSplitComma (env "ALLOWED_DOMAINS")).headD "" = "") ∧
    (∀ cfg, initConfig env = some cfg →
      cfg.AllowedDomains ≠ [] ∧ cfg.AllowedDomains.headD "" ≠ "") := by
  cases hds : goSplitComma (env "ALLOWED_DOMAINS") with
  | nil => exact absurd hds (goSplitComma_ne_nil _)
  | cons a t =>
    constructor
    · by_cases ha : a = ""
      · simp [initConfig, hds, ha]
      · simp [initConfig, hds, ha]
    · intro cfg hcfg
      by_cases ha : a = ""
      · simp [initConfig, hds, ha] at hcfg
      · simp [initConfig, hds, ha] at hcfg
        subst hcfg
        simp [ha]

/-- Witness for `config_fail_iff_first_elem_empty`: with
`ALLOWED_DOMAINS="example.com"` startup succeeds and yields the non-empty
domain list. -/
theorem config_fail_iff_first_elem_empty_witness :
    sampleConfig.AllowedDomains ≠ [] ∧
    sampleConfig.AllowedDomains.headD "" ≠ "" :=
  (config_fail_iff_first_elem_empty envGood).2 sampleConfig (by decide)

/-- Claim C8: when `c.Parse()` fails, `handler` returns that error to the SMTP
collaborator and the mailbox map is exactly the one before the call — no store
mutation happens on the parse-failure path. -/
theorem parse_failure_no_store_mutation (toRaw fromRaw e : String) (now : Nat)
    (box : MailBoxMap) :
    handler toRaw fromRaw (.error e) now box = (.error e, box) := rfl

/-- Claim C9: popping the last remaining message of a key leaves the key
mapped to the empty slice (`some []`), not removed from the map; a key mapped
to the empty slice is retrieval-equivalent to an absent key; and both
`handleGetMail` and the append path preserve that equivalence, so the two
states cannot be told apart through the public interface. -/
theorem empty_slice_indistinguishable_from_absent :
    (∀ box : MailBoxMap, ∀ key : String, ∀ m : MailContent,
      box key = some [m] →
        (handleGetMail box key).2 key = some ([] : List MailContent)) ∧
    (∀ box : MailBoxMap, ∀ key : String, box key = none →
        obsEquiv (mapInsert box key []) box) ∧
    (∀ b1 b2 : MailBoxMap, obsEquiv b1 b2 → ∀ k : String,
        (handleGetMail b1 k).1 = (handleGetMail b2 k).1 ∧
        obsEquiv (handleGetMail b1 k).2 (handleGetMail b2 k).2) ∧
    (∀ b1 b2 : MailBoxMap, obsEquiv b1 b2 → ∀ k : String, ∀ c : MailContent,
        obsEquiv (storeAppend b1 k c) (storeAppend b2 k c)) := by
  refine ⟨?_, ?_, ?_, ?_⟩
  · intro box key m h
    have p := handleGetMail_concatD box key [] m (by rw [h]; rfl)
    rw [p]
    exact mapInsert_self box key []
  · intro box key h x
    by_cases hx : x = key
    · subst hx
      simp [mapInsert, h]
    · simp [mapInsert, hx]
  · intro b1 b2 he k
    rcases List.eq_nil_or_concat ((b1 k).getD []) with hnil | ⟨l, m, hcat⟩
    · have p1 := handleGetMail_nilD b1 k hnil
      have p2 := handleGetMail_nilD b2 k (by rw [← he k]; exact hnil)
      rw [p1, p2]
      exact ⟨rfl, he⟩
    · rw [List.concat_eq_append] at hcat
      have p1 := handleGetMail_concatD b1 k l m hcat
      have p2 := handleGetMail_concatD b2 k l m (by rw [← he k]; exact hcat)
      rw [p1, p2]
      refine ⟨rfl, fun x => ?_⟩
      by_cases hx : x = k
      · subst hx
        simp [mapInsert]
      · simp [mapInsert, hx, he x]
  · intro b1 b2 he k c x
    by_cases hx : x = k
    · subst hx
      simp [storeAppend, mapInsert, he x]
    · simp [storeAppend, mapInsert, hx, he x]

/-- Witness for `empty_slice_indistinguishable_from_absent`: popping the only
message of `"k"` leaves `"k"` mapped to `some []`. -/
theorem empty_slice_indistinguishable_from_absent_witness :
    (handleGetMail sampleBox "k").2 "k" = some ([] : List MailContent) :=
  empty_slice_indistinguishable_from_absent.1 sampleBox "k" sampleMsg1
    (by decide)

/-- Claim C10: whenever the first comma-separated element of the
`ALLOWED_DOMAINS` value is empty, startup aborts — regardless of the remaining
elements, so `",example.com"` fails even though it contains the non-empty
domain `"example.com"`. -/
theorem config_fail_whenever_first_elem_empty (env : String → String)
    (h : (goSplitComma (env "ALLOWED_DOMAINS")).headD "" = "") :
    initConfig env = none := by
  cases hds : goSplitComma (env "ALLOWED_DOMAINS") with
  | nil => simp [initConfig, hds]
  | cons a t =>
    rw [hds] at h
    simp only [List.headD_cons] at h
    simp [initConfig, hds, h]

/-- Witness for `config_fail_whenever_first_elem_empty` at
`ALLOWED_DOMAINS=",example.com"`, whose split contains `"example.com"`. -/
theorem config_fail_whenever_first_elem_empty_witness :
    (goSplitComma (envComma "ALLOWED_DOMAINS")).headD "" = "" ∧
    "example.com" ∈ goSplitComma (envComma "ALLOWED_DOMAINS") ∧
    initConfig envComma = none :=
  ⟨by decide, by decide, config_fail_whenever_first_elem_empty envComma (by decide)⟩
